import Mathlib

/-!
Verification of the Garden-Cam power-controller firmware (src/src/main.cpp).

The firmware is a single-loop Arduino sketch that arbitrates a relay
(powering a Pi) from: an operating mode (`alwaysOn`), a PIR motion sensor,
host commands delivered over I2C (`rxEvent`), and an optional low-battery
cutoff (`saveBattery`).  We give a shallow embedding: the global mutable
variables become a state record `St`, `millis()` timestamps become `Nat`
with 32-bit wraparound subtraction `usub`, float arithmetic is modelled
exactly over `ℚ`, and the terminal deep-sleep of the battery cutoff is
modelled by a `Bool` halt flag absorbed by the `Config` step relation.
-/

namespace GardenCam

/-- `RELAY_ON_STATE` (HIGH = relay closed = Pi powered). -/
def RELAY_ON_STATE : Bool := true

/-- `CMD_SHUT  0x07`. -/
def CMD_SHUT : Nat := 0x07

/-- `CMD_MODE  0x0D`. -/
def CMD_MODE : Nat := 0x0D

/-- `VREF = 5.0` (modelled exactly in `ℚ`). -/
def VREF : ℚ := 5

/-- `R1 = 30000.0`. -/
def R1 : ℚ := 30000

/-- `R2 = 7500.0`. -/
def R2 : ℚ := 7500

/-- `VBAT_CUT = 5.40`. -/
def VBAT_CUT : ℚ := 27 / 5

/-- The firmware's global mutable state: the `volatile`/plain globals of
main.cpp plus the physical relay pin level (written by
`digitalWrite(PIN_RELAY, _)`) and the configuration flag `battCutoff`. -/
structure St where
  /-- `volatile bool alwaysOn` — true = ALWAYS_ON mode, false = PIR mode. -/
  alwaysOn : Bool
  /-- `volatile bool rqShutdown`. -/
  rqShutdown : Bool
  /-- `bool powering` — relay currently ON? -/
  powering : Bool
  /-- `unsigned long onMs` — timestamp of last relay-ON transition. -/
  onMs : Nat
  /-- `bool lastPir` — previous PIR reading. -/
  lastPir : Bool
  /-- `uint8_t battPct`. -/
  battPct : Nat
  /-- `unsigned long battT` — last battery-sample timestamp. -/
  battT : Nat
  /-- level of the physical relay output pin (true = HIGH). -/
  pinRelay : Bool
  /-- `bool battCutoff` — cutoff feature enable, initialised `false`. -/
  battCutoff : Bool
deriving DecidableEq, Repr

/-- 2^32: `unsigned long` on AVR is 32 bits wide. -/
def M32 : Nat := 4294967296

/-- 32-bit unsigned subtraction `a - b`, as used for `millis() - t`
elapsed-time comparisons (wraparound semantics). -/
def usub (a b : Nat) : Nat := (a % M32 + (M32 - b % M32)) % M32

theorem usub_add (t k : Nat) (h : t + k < M32) : usub (t + k) t = k := by
  unfold usub M32 at *
  omega

/-- `relayOn()`: drive the relay pin to `RELAY_ON_STATE`. -/
def relayOn (s : St) : St := { s with pinRelay := RELAY_ON_STATE }

/-- `relayOff()`: drive the relay pin to `!RELAY_ON_STATE`. -/
def relayOff (s : St) : St := { s with pinRelay := !RELAY_ON_STATE }

/-- `readAdc()`: 8× oversampled ADC average, accumulated in a `uint32_t`
and truncated to `uint16_t` on return (`s >> 3` then the implicit cast). -/
def readAdc (a : Fin 8 → Nat) : Nat :=
  (((∑ i, a i) % M32) >>> 3) % 65536

/-- `raw*VREF/1023.0*(R1+R2)/R2` — the divider voltage, exact in `ℚ`. -/
def vOf (raw : Nat) : ℚ := (raw : ℚ) * VREF / 1023 * (R1 + R2) / R2

/-- `(v-5.5)*100.0/3.3` — the linear percentage formula, exact in `ℚ`. -/
def pctOf (v : ℚ) : ℚ := (v - 11 / 2) * 100 / (33 / 10)

/-- The C cast `(uint8_t)(float)`: truncation toward zero, then the
two's-complement wrap into 0..255 that the AVR target produces for
out-of-range values. -/
def cuint8 (q : ℚ) : Nat := ((if 0 ≤ q then ⌊q⌋ else -⌊-q⌋).emod 256).toNat

/-- Arduino's `constrain(x, 0, 100)` macro, applied to a `uint8_t`. -/
def constrainU8 (x : Nat) : Nat := if x < 0 then 0 else if x > 100 then 100 else x

/-- `saveBattery()`: sample (the raw ADC value is a parameter), store the
clamped percentage, and — when the cutoff feature is enabled and the
voltage is below `VBAT_CUT` — force the relay off and power down forever.
The second component is the halt flag: `true` means
`LowPower.powerDown(SLEEP_FOREVER, ...)` was reached and control never
returns. -/
def saveBattery (raw : Nat) (s : St) : St × Bool :=
  let v := vOf raw
  let s1 := { s with battPct := constrainU8 (cuint8 (pctOf v)) }
  if s.battCutoff = true ∧ v < VBAT_CUT then (relayOff s1, true)
  else (s1, false)

/-- `applyRelay()`: re-assert the relay from the current mode. -/
def applyRelay (now : Nat) (s : St) : St :=
  if s.alwaysOn = true then
    { relayOn s with powering := true, onMs := now }
  else
    { relayOff s with powering := false }

/-- `rxEvent(n)`: the I2C receive handler.  `bytes` is the received frame
(`n = bytes.length`); all bytes not consumed by a command are drained and
discarded.  `bool nm = Wire.read()` converts the payload byte to a Bool
by the C nonzero test. -/
def rxEvent (bytes : List Nat) (now : Nat) (s : St) : St :=
  match bytes with
  | [] => s
  | cmd :: rest =>
    if cmd = CMD_MODE ∧ rest ≠ [] then
      let nm : Bool := rest.headD 0 != 0
      if nm ≠ s.alwaysOn then applyRelay now { s with alwaysOn := nm } else s
    else if cmd = CMD_SHUT then { s with rqShutdown := true }
    else s

/-- The battery-cadence step at the top of `loop()`:
`if (millis() - battT >= 10000UL) { battT = millis(); saveBattery(); }`. -/
def battStep (raw now : Nat) (s : St) : St × Bool :=
  if 10000 ≤ usub now s.battT then saveBattery raw { s with battT := now }
  else (s, false)

/-- The body of `loop()` after the battery check: PIR rising edge in PIR
mode, `lastPir = pir`, the 60 s timeout, and `CMD_SHUT` honoured only in
PIR mode (in that order). -/
def loopCore (pir : Bool) (now : Nat) (s1 : St) : St :=
  let s2 :=
    if s1.alwaysOn = false ∧ pir = true ∧ s1.lastPir = false then
      { relayOn s1 with powering := true, onMs := now }
    else s1
  let s3 := { s2 with lastPir := pir }
  let s4 :=
    if s3.alwaysOn = false ∧ s3.powering = true ∧ 60000 ≤ usub now s3.onMs then
      { relayOff s3 with powering := false }
    else s3
  let s5 :=
    if s4.alwaysOn = false ∧ s4.rqShutdown = true then
      { relayOff s4 with powering := false, rqShutdown := false }
    else s4
  s5

/-- One iteration of `loop()`.  `pir` is this cycle's PIR reading, `raw`
the ADC value a battery sample would see, `now` the value of `millis()`.
The Bool is the halt flag propagated from `saveBattery`: when it is set
the rest of the iteration never runs. -/
def loop (pir : Bool) (raw now : Nat) (s : St) : St × Bool :=
  let b := battStep raw now s
  if b.2 then b else (loopCore pir now b.1, false)

/-- The globals as initialised at their declarations (the relay pin is
low after MCU reset, before `setup()` drives it). -/
def initSt : St :=
  { alwaysOn := true, rqShutdown := false, powering := true, onMs := 0,
    lastPir := false, battPct := 0, battT := 0, pinRelay := false,
    battCutoff := false }

/-- `setup()`: relay on, `powering = true`, `onMs = millis()`, initial PIR
read, one battery sample, then `battT = millis()` (skipped if the sample
halted). -/
def setup (now : Nat) (pir0 : Bool) (raw : Nat) : St × Bool :=
  let s := { relayOn initSt with powering := true, onMs := now, lastPir := pir0 }
  let b := saveBattery raw s
  if b.2 then b else ({ b.1 with battT := now }, false)

/-- `txEvent()`: `Wire.write(battPct)` — the byte reported on a bus read
request. -/
def txEvent (s : St) : Nat := s.battPct

/-- Iterated `loop()` ticks during all of which the PIR input reads
HIGH; each list entry gives that tick's (raw ADC value, `millis()`). -/
def pollsHigh (l : List (Nat × Nat)) (s : St) : St :=
  l.foldl (fun s p => (loop true p.1 p.2 s).1) s

/-- A run configuration: either the loop is still polling, or the
firmware entered the terminal `powerDown(SLEEP_FOREVER, ...)`. -/
inductive Config where
  | running (s : St) : Config
  | halted (s : St) : Config
deriving DecidableEq, Repr

/-- An externally visible event: one loop iteration (with its sensor
inputs and clock), or one I2C receive interrupt. -/
inductive Ev where
  | tick (pir : Bool) (raw now : Nat) : Ev
  | rx (bytes : List Nat) (now : Nat) : Ev

/-- Event semantics.  The halted configuration is absorbing: the deep
sleep has no wake source other than external reset, so no operation runs
after it. -/
def step (e : Ev) (c : Config) : Config :=
  match c with
  | .halted s => .halted s
  | .running s =>
    match e with
    | .tick pir raw now =>
      let b := loop pir raw now s
      if b.2 then .halted b.1 else .running b.1
    | .rx bytes now => .running (rxEvent bytes now s)

/-- Run a sequence of events. -/
def run (evs : List Ev) (c : Config) : Config := evs.foldl (fun c e => step e c) c

/-- The configuration after `setup()`. -/
def boot (now : Nat) (pir0 : Bool) (raw : Nat) : Config :=
  let b := setup now pir0 raw
  if b.2 then .halted b.1 else .running b.1

/-! ## Helper lemmas -/

theorem usub_self (a : Nat) : usub a a = 0 := by
  unfold usub M32
  omega

theorem saveBattery_fields (raw : Nat) (s : St) :
    (saveBattery raw s).1.alwaysOn = s.alwaysOn ∧
    (saveBattery raw s).1.rqShutdown = s.rqShutdown ∧
    (saveBattery raw s).1.powering = s.powering ∧
    (saveBattery raw s).1.onMs = s.onMs ∧
    (saveBattery raw s).1.lastPir = s.lastPir ∧
    (saveBattery raw s).1.battT = s.battT ∧
    (saveBattery raw s).1.battCutoff = s.battCutoff := by
  simp only [saveBattery]
  split_ifs <;> simp [relayOff]

theorem saveBattery_no_halt (raw : Nat) (s : St) (h : s.battCutoff = false) :
    (saveBattery raw s).2 = false := by
  simp only [saveBattery]
  split_ifs with h1
  · rw [h] at h1
    simp at h1
  · rfl

theorem saveBattery_pin_of_not_halted (raw : Nat) (s : St)
    (h : (saveBattery raw s).2 = false) :
    (saveBattery raw s).1.pinRelay = s.pinRelay := by
  simp only [saveBattery] at h ⊢
  split_ifs at h ⊢
  · rfl

theorem battStep_fields (raw now : Nat) (s : St) :
    (battStep raw now s).1.alwaysOn = s.alwaysOn ∧
    (battStep raw now s).1.rqShutdown = s.rqShutdown ∧
    (battStep raw now s).1.powering = s.powering ∧
    (battStep raw now s).1.onMs = s.onMs ∧
    (battStep raw now s).1.lastPir = s.lastPir ∧
    (battStep raw now s).1.battCutoff = s.battCutoff := by
  simp only [battStep]
  split_ifs with h1
  · obtain ⟨g1, g2, g3, g4, g5, g6, g7⟩ := saveBattery_fields raw { s with battT := now }
    simp_all
  · simp

theorem battStep_no_halt (raw now : Nat) (s : St) (h : s.battCutoff = false) :
    (battStep raw now s).2 = false := by
  simp only [battStep]
  split_ifs with h1
  · exact saveBattery_no_halt raw _ (by simpa using h)
  · rfl

theorem battStep_pin_of_not_halted (raw now : Nat) (s : St)
    (h : (battStep raw now s).2 = false) :
    (battStep raw now s).1.pinRelay = s.pinRelay := by
  simp only [battStep] at h ⊢
  split_ifs at h ⊢ with h1
  · exact saveBattery_pin_of_not_halted raw _ h
  · rfl

theorem loop_eq_core (pir : Bool) (raw now : Nat) (s : St)
    (h : s.battCutoff = false) :
    loop pir raw now s = (loopCore pir now (battStep raw now s).1, false) := by
  simp only [loop]
  rw [battStep_no_halt raw now s h]
  simp

theorem loopCore_battCutoff (pir : Bool) (now : Nat) (s1 : St) :
    (loopCore pir now s1).battCutoff = s1.battCutoff := by
  simp only [loopCore, relayOn, relayOff]
  split_ifs <;> rfl

theorem loopCore_alwaysOn (pir : Bool) (now : Nat) (s1 : St) :
    (loopCore pir now s1).alwaysOn = s1.alwaysOn := by
  simp only [loopCore, relayOn, relayOff]
  split_ifs <;> rfl

theorem loopCore_pin_powering (pir : Bool) (now : Nat) (s1 : St)
    (h : s1.pinRelay = s1.powering) :
    (loopCore pir now s1).pinRelay = (loopCore pir now s1).powering := by
  simp only [loopCore, relayOn, relayOff]
  split_ifs <;> simp [RELAY_ON_STATE, h]

theorem rxEvent_battCutoff (bytes : List Nat) (now : Nat) (s : St) :
    (rxEvent bytes now s).battCutoff = s.battCutoff := by
  cases bytes with
  | nil => rfl
  | cons c rest =>
    simp only [rxEvent, applyRelay, relayOn, relayOff]
    split_ifs <;> rfl

theorem loop_no_halt (pir : Bool) (raw now : Nat) (s : St)
    (h : s.battCutoff = false) :
    (loop pir raw now s).2 = false ∧ (loop pir raw now s).1.battCutoff = false := by
  rw [loop_eq_core pir raw now s h]
  refine ⟨rfl, ?_⟩
  rw [loopCore_battCutoff, (battStep_fields raw now s).2.2.2.2.2]
  exact h

theorem loopCore_alwaysOn_mode (pir : Bool) (now : Nat) (s1 : St)
    (hA : s1.alwaysOn = true) :
    loopCore pir now s1 = { s1 with lastPir := pir } := by
  simp only [loopCore]
  split_ifs <;> simp_all

theorem loopCore_shutdown (pir : Bool) (now : Nat) (s1 : St)
    (hA : s1.alwaysOn = false) (hR : s1.rqShutdown = true) :
    (loopCore pir now s1).powering = false ∧
    (loopCore pir now s1).pinRelay = !RELAY_ON_STATE ∧
    (loopCore pir now s1).rqShutdown = false := by
  simp only [loopCore, relayOn, relayOff]
  split_ifs <;> simp_all

theorem loop_sustained_high (r n : Nat) (s : St)
    (hA : s.alwaysOn = false) (hC : s.battCutoff = false) (hL : s.lastPir = true) :
    (loop true r n s).1.onMs = s.onMs ∧
    (loop true r n s).1.alwaysOn = false ∧
    (loop true r n s).1.battCutoff = false ∧
    (loop true r n s).1.lastPir = true := by
  rw [loop_eq_core _ _ _ _ hC]
  obtain ⟨b1, b2, b3, b4, b5, b6⟩ := battStep_fields r n s
  simp only [loopCore, relayOn, relayOff]
  split_ifs <;> simp_all

theorem pollsHigh_onMs (l : List (Nat × Nat)) (s : St)
    (hA : s.alwaysOn = false) (hC : s.battCutoff = false) (hL : s.lastPir = true) :
    (pollsHigh l s).onMs = s.onMs := by
  induction l generalizing s with
  | nil => rfl
  | cons p l ih =>
    obtain ⟨g1, g2, g3, g4⟩ := loop_sustained_high p.1 p.2 s hA hC hL
    have hc : pollsHigh (p :: l) s = pollsHigh l (loop true p.1 p.2 s).1 := rfl
    rw [hc, ih _ g2 g3 g4, g1]

theorem run_cons (e : Ev) (evs : List Ev) (c : Config) :
    run (e :: evs) c = run evs (step e c) := rfl

theorem run_halted_absorbs (evs : List Ev) (s : St) :
    run evs (.halted s) = .halted s := by
  induction evs with
  | nil => rfl
  | cons e evs ih => exact ih

theorem run_preserves_noCutoff (evs : List Ev) (s : St)
    (h : s.battCutoff = false) :
    ∃ s2 : St, run evs (.running s) = .running s2 ∧ s2.battCutoff = false := by
  induction evs generalizing s with
  | nil => exact ⟨s, rfl, h⟩
  | cons e evs ih =>
    cases e with
    | tick pir raw now =>
      obtain ⟨hl, hc⟩ := loop_no_halt pir raw now s h
      have hstep : step (.tick pir raw now) (.running s)
          = .running (loop pir raw now s).1 := by
        simp [step, hl]
      rw [run_cons, hstep]
      exact ih _ hc
    | rx bytes now =>
      have hstep : step (.rx bytes now) (.running s)
          = .running (rxEvent bytes now s) := rfl
      rw [run_cons, hstep]
      exact ih _ (by rw [rxEvent_battCutoff]; exact h)

/-! ## Claims -/

/-- C1: a `SET_MODE` command whose new mode differs from the current one
re-asserts the relay synchronously inside the mode change: switching to
ALWAYS_ON drives the relay ON (pin at `RELAY_ON_STATE`) with the power
timer reset to the current time, and switching to PIR_TRIGGERED drives
the relay OFF — for every prior state. -/
theorem C1_applyMode_forces_relay (s : St) (now m : Nat) :
    (s.alwaysOn = false → m ≠ 0 →
      (rxEvent [CMD_MODE, m] now s).alwaysOn = true ∧
      (rxEvent [CMD_MODE, m] now s).powering = true ∧
      (rxEvent [CMD_MODE, m] now s).pinRelay = RELAY_ON_STATE ∧
      (rxEvent [CMD_MODE, m] now s).onMs = now) ∧
    (s.alwaysOn = true →
      (rxEvent [CMD_MODE, 0] now s).alwaysOn = false ∧
      (rxEvent [CMD_MODE, 0] now s).powering = false ∧
      (rxEvent [CMD_MODE, 0] now s).pinRelay = !RELAY_ON_STATE) := by
  constructor
  · intro hA hm
    have hnm : (m != 0) = true := by simpa using hm
    simp [rxEvent, applyRelay, relayOn, hnm, hA]
  · intro hA
    simp [rxEvent, applyRelay, relayOff, hA]

/-- Witness for C1: a concrete mode change in each direction. -/
theorem C1_applyMode_forces_relay_witness :
    (rxEvent [CMD_MODE, 1] 42 { initSt with alwaysOn := false }).powering = true ∧
    (rxEvent [CMD_MODE, 1] 42 { initSt with alwaysOn := false }).onMs = 42 ∧
    (rxEvent [CMD_MODE, 0] 7 initSt).powering = false := by
  have h1 := (C1_applyMode_forces_relay { initSt with alwaysOn := false } 42 1).1 rfl
    (by decide)
  have h2 := (C1_applyMode_forces_relay initSt 7 0).2 rfl
  exact ⟨h1.2.1, h1.2.2.2, h2.2.1⟩

/-- C5: a `SET_MODE` command whose mode value denotes the
currently-active mode changes nothing at all: the state (relay, timer
and everything else) is returned unchanged. -/
theorem C5_mode_reassert_noop (s : St) (now m : Nat)
    (h : (m != 0) = s.alwaysOn) :
    rxEvent [CMD_MODE, m] now s = s := by
  simp [rxEvent, h]

/-- Witness for C5: reasserting ALWAYS_ON on the initial state. -/
theorem C5_mode_reassert_noop_witness :
    rxEvent [CMD_MODE, 1] 5 initSt = initSt :=
  C5_mode_reassert_noop initSt 5 1 (by decide)

/-- C8 counterexample: the two-byte frame `[0x07, 0x00]` is over-length
(REQUEST_SHUTDOWN takes no payload), yet the handler does change state:
it sets the shutdown flag. -/
theorem C8_overlength_changes_state :
    initSt.rqShutdown = false ∧
    (rxEvent [CMD_SHUT, 0] 0 initSt).rqShutdown = true := by
  decide

/-- C8 (amended): a frame with an unrecognized leading byte changes no
state whatever its length; a short `SET_MODE` frame changes no state;
and extra bytes beyond those a recognized command consumes are drained
with no effect (the handler's result does not depend on them).  The
handler is a total function, so it never crashes and surfaces no
error. -/
theorem C8_tolerant_rx (c now m : Nat) (rest extra : List Nat) (s : St)
    (hc1 : c ≠ CMD_MODE) (hc2 : c ≠ CMD_SHUT) :
    rxEvent (c :: rest) now s = s ∧
    rxEvent [CMD_MODE] now s = s ∧
    rxEvent (CMD_MODE :: m :: extra) now s = rxEvent [CMD_MODE, m] now s ∧
    rxEvent (CMD_SHUT :: extra) now s = rxEvent [CMD_SHUT] now s := by
  refine ⟨?_, ?_, ?_, ?_⟩
  · simp [rxEvent, hc1, hc2]
  · simp [rxEvent, CMD_MODE, CMD_SHUT]
  · simp [rxEvent]
  · simp [rxEvent, CMD_MODE, CMD_SHUT]

/-- Witness for C8 (amended): unknown command byte 0x05, a bare
`SET_MODE` byte, and an over-length `SET_MODE` frame. -/
theorem C8_tolerant_rx_witness :
    rxEvent [5, 1] 0 initSt = initSt ∧
    rxEvent [CMD_MODE] 0 initSt = initSt ∧
    rxEvent [CMD_MODE, 0, 9] 0 initSt = rxEvent [CMD_MODE, 0] 0 initSt := by
  have h := C8_tolerant_rx 5 0 0 [1] [9] initSt (by decide) (by decide)
  exact ⟨h.1, h.2.1, h.2.2.1⟩

/-- C7: an averaged ADC reading lies in 0..1023 whenever the individual
10-bit samples do, and for every raw value whatsoever the battery
percentage stored by `saveBattery` — and hence the byte reported by
`txEvent` — lies in [0,100]: the linear formula's result is clamped by
`constrain(_, 0, 100)`. -/
theorem C7_battPct_clamped (a : Fin 8 → Nat) (raw : Nat) (s : St)
    (ha : ∀ i, a i ≤ 1023) :
    readAdc a ≤ 1023 ∧
    (saveBattery raw s).1.battPct ≤ 100 ∧
    txEvent (saveBattery raw s).1 ≤ 100 := by
  have hcon : ∀ x : Nat, constrainU8 x ≤ 100 := by
    intro x
    unfold constrainU8
    split_ifs <;> omega
  have hPct : (saveBattery raw s).1.battPct
      = constrainU8 (cuint8 (pctOf (vOf raw))) := by
    simp only [saveBattery]
    split_ifs <;> simp [relayOff]
  refine ⟨?_, ?_, ?_⟩
  · have h8 : (∑ i, a i) ≤ 8184 := by
      rw [Fin.sum_univ_eight]
      have h0 := ha 0
      have h1 := ha 1
      have h2 := ha 2
      have h3 := ha 3
      have h4 := ha 4
      have h5 := ha 5
      have h6 := ha 6
      have h7 := ha 7
      omega
    simp only [readAdc, Nat.shiftRight_eq_div_pow, M32]
    norm_num
    omega
  · rw [hPct]
    exact hcon _
  · rw [txEvent, hPct]
    exact hcon _

/-- Witness for C7: all eight samples at full scale. -/
theorem C7_battPct_clamped_witness :
    readAdc (fun _ => 1023) ≤ 1023 ∧
    (saveBattery 1023 initSt).1.battPct ≤ 100 := by
  have h := C7_battPct_clamped (fun _ => 1023) 1023 initSt (by decide)
  exact ⟨h.1, h.2.1⟩

/-- C2: in PIR mode, with the relay ON since `t0` and nothing else
interfering at the tick (no PIR rising edge, no pending shutdown
request, clock not yet wrapped), the tick at `t0 + 60000` turns the
relay OFF while the tick at `t0 + 59999` leaves it ON: the hold-window
comparison is `>=` against exactly 60000 ms. -/
theorem C2_pir_timeout_boundary (s : St) (t0 raw : Nat) (pir : Bool)
    (hA : s.alwaysOn = false) (hP : s.powering = true) (hPin : s.pinRelay = true)
    (hT : s.onMs = t0) (hC : s.battCutoff = false) (hRq : s.rqShutdown = false)
    (hE : pir = true → s.lastPir = true) (hW : t0 + 60000 < M32) :
    ((loop pir raw (t0 + 60000) s).1.powering = false ∧
     (loop pir raw (t0 + 60000) s).1.pinRelay = !RELAY_ON_STATE) ∧
    ((loop pir raw (t0 + 59999) s).1.powering = true ∧
     (loop pir raw (t0 + 59999) s).1.pinRelay = true) := by
  have h60 : usub (t0 + 60000) t0 = 60000 := usub_add t0 60000 hW
  have h59 : usub (t0 + 59999) t0 = 59999 := usub_add t0 59999 (by unfold M32 at *; omega)
  constructor
  · rw [loop_eq_core _ _ _ _ hC]
    obtain ⟨b1, b2, b3, b4, b5, b6⟩ := battStep_fields raw (t0 + 60000) s
    cases pir with
    | false =>
      simp [loopCore, relayOn, relayOff, b1, b2, b3, b4, b5, hA, hP, hT, hRq, h60]
    | true =>
      simp [loopCore, relayOn, relayOff, b1, b2, b3, b4, b5, hA, hP, hT, hRq,
        hE rfl, h60]
  · rw [loop_eq_core _ _ _ _ hC]
    obtain ⟨b1, b2, b3, b4, b5, b6⟩ := battStep_fields raw (t0 + 59999) s
    have bp := battStep_pin_of_not_halted raw (t0 + 59999) s (battStep_no_halt _ _ _ hC)
    cases pir with
    | false =>
      simp [loopCore, relayOn, relayOff, b1, b2, b3, b4, b5, bp, hA, hP, hPin, hT,
        hRq, h59]
    | true =>
      simp [loopCore, relayOn, relayOff, b1, b2, b3, b4, b5, bp, hA, hP, hPin, hT,
        hRq, hE rfl, h59]

/-- Witness for C2 at `t0 = 0` from a quiescent PIR-mode state. -/
theorem C2_pir_timeout_boundary_witness :
    (loop false 0 60000
      { initSt with alwaysOn := false, onMs := 0, pinRelay := true }).1.powering
      = false ∧
    (loop false 0 59999
      { initSt with alwaysOn := false, onMs := 0, pinRelay := true }).1.powering
      = true := by
  have h := C2_pir_timeout_boundary
    { initSt with alwaysOn := false, onMs := 0, pinRelay := true }
    0 0 false rfl rfl (by decide) rfl rfl rfl (by decide) (by decide)
  exact ⟨h.1.1, h.2.1⟩

/-- C3: a shutdown request followed by a tick: in ALWAYS_ON mode the
relay stays ON and the request flag stays set (it is never consumed
while the mode is ALWAYS_ON); in PIR_TRIGGERED mode the tick turns the
relay OFF and clears the flag. -/
theorem C3_shutdown_mode_dependence (s : St) (raw now now2 : Nat) (pir : Bool)
    (hC : s.battCutoff = false) :
    (s.alwaysOn = true → s.powering = true → s.pinRelay = true →
      ((loop pir raw now2 (rxEvent [CMD_SHUT] now s)).1.powering = true ∧
       (loop pir raw now2 (rxEvent [CMD_SHUT] now s)).1.pinRelay = true ∧
       (loop pir raw now2 (rxEvent [CMD_SHUT] now s)).1.rqShutdown = true)) ∧
    (s.alwaysOn = false →
      ((loop pir raw now2 (rxEvent [CMD_SHUT] now s)).1.powering = false ∧
       (loop pir raw now2 (rxEvent [CMD_SHUT] now s)).1.pinRelay = !RELAY_ON_STATE ∧
       (loop pir raw now2 (rxEvent [CMD_SHUT] now s)).1.rqShutdown = false)) := by
  have hrx : rxEvent [CMD_SHUT] now s = { s with rqShutdown := true } := by
    simp [rxEvent, CMD_MODE, CMD_SHUT]
  rw [hrx]
  have hC2 : St.battCutoff { s with rqShutdown := true } = false := hC
  rw [loop_eq_core _ _ _ _ hC2]
  obtain ⟨b1, b2, b3, b4, b5, b6⟩ := battStep_fields raw now2 { s with rqShutdown := true }
  have bp := battStep_pin_of_not_halted raw now2 { s with rqShutdown := true }
    (battStep_no_halt _ _ _ hC2)
  constructor
  · intro hA hP hPin
    rw [loopCore_alwaysOn_mode pir now2 _ (by rw [b1]; exact hA)]
    refine ⟨?_, ?_, ?_⟩
    · simpa [b3] using hP
    · simpa [bp] using hPin
    · simpa using b2
  · intro hA
    exact loopCore_shutdown pir now2 _ (by rw [b1]; exact hA) (by simpa using b2)

/-- Witness for C3: the same request-then-tick pair in each mode. -/
theorem C3_shutdown_mode_dependence_witness :
    ((loop false 0 50
        (rxEvent [CMD_SHUT] 10 { initSt with pinRelay := true })).1.powering
      = true ∧
     (loop false 0 50
        (rxEvent [CMD_SHUT] 10 { initSt with pinRelay := true })).1.rqShutdown
      = true) ∧
    ((loop false 0 50
        (rxEvent [CMD_SHUT] 10 { initSt with alwaysOn := false })).1.powering
      = false ∧
     (loop false 0 50
        (rxEvent [CMD_SHUT] 10 { initSt with alwaysOn := false })).1.rqShutdown
      = false) := by
  have h1 := (C3_shutdown_mode_dependence { initSt with pinRelay := true }
    0 10 50 false rfl).1 rfl rfl (by decide)
  have h2 := (C3_shutdown_mode_dependence { initSt with alwaysOn := false }
    0 10 50 false rfl).2 rfl
  exact ⟨⟨h1.1, h1.2.2⟩, ⟨h2.1, h2.2.2⟩⟩

/-- C4: in PIR mode, after a LOW reading, a run of consecutive HIGH
readings fires the relay-ON/timer-reset exactly once — on the LOW→HIGH
transition tick, which turns the relay ON and sets the timer to that
tick's time — and every later tick of the sustained-HIGH run leaves the
timer untouched. -/
theorem C4_motion_edge_fires_once (s : St) (raw n1 : Nat) (l : List (Nat × Nat))
    (hA : s.alwaysOn = false) (hC : s.battCutoff = false)
    (hL : s.lastPir = false) (hRq : s.rqShutdown = false) :
    (loop true raw n1 s).1.powering = true ∧
    (loop true raw n1 s).1.pinRelay = RELAY_ON_STATE ∧
    (loop true raw n1 s).1.onMs = n1 ∧
    (pollsHigh l (loop true raw n1 s).1).onMs = n1 := by
  have key : (loop true raw n1 s).1.powering = true ∧
      (loop true raw n1 s).1.pinRelay = RELAY_ON_STATE ∧
      (loop true raw n1 s).1.onMs = n1 ∧
      (loop true raw n1 s).1.lastPir = true := by
    rw [loop_eq_core _ _ _ _ hC]
    obtain ⟨b1, b2, b3, b4, b5, b6⟩ := battStep_fields raw n1 s
    simp [loopCore, relayOn, relayOff, b1, b2, b3, b4, b5, hA, hL, hRq, usub_self]
  have hAo : (loop true raw n1 s).1.alwaysOn = false := by
    rw [loop_eq_core _ _ _ _ hC, loopCore_alwaysOn, (battStep_fields raw n1 s).1]
    exact hA
  have hCo := (loop_no_halt true raw n1 s hC).2
  refine ⟨key.1, key.2.1, key.2.2.1, ?_⟩
  rw [pollsHigh_onMs l _ hAo hCo key.2.2.2, key.2.2.1]

/-- Witness for C4: a rising edge at 100 ms followed by two more HIGH
polls. -/
theorem C4_motion_edge_fires_once_witness :
    (loop true 0 100 { initSt with alwaysOn := false }).1.powering = true ∧
    (loop true 0 100 { initSt with alwaysOn := false }).1.onMs = 100 ∧
    (pollsHigh [(0, 150), (0, 200)]
      (loop true 0 100 { initSt with alwaysOn := false }).1).onMs = 100 := by
  have h := C4_motion_edge_fires_once { initSt with alwaysOn := false }
    0 100 [(0, 150), (0, 200)] rfl rfl rfl rfl
  exact ⟨h.1, h.2.2.1, h.2.2.2⟩

/-- C6: with the cutoff feature enabled, a due battery sample whose
computed voltage is below the 5.40 V threshold forces the relay pin OFF
and halts (the deep sleep never returns); the halted configuration
absorbs every subsequent event, so within the same run no later
operation of any component can turn the relay back ON. -/
theorem C6_cutoff_terminal (s : St) (raw now : Nat) (pir : Bool) (evs : List Ev)
    (hEn : s.battCutoff = true) (hV : vOf raw < VBAT_CUT)
    (hDue : 10000 ≤ usub now s.battT) :
    (loop pir raw now s).2 = true ∧
    (loop pir raw now s).1.pinRelay = !RELAY_ON_STATE ∧
    run evs (.halted (loop pir raw now s).1) = .halted (loop pir raw now s).1 := by
  have hb : (battStep raw now s).2 = true ∧
      (battStep raw now s).1.pinRelay = !RELAY_ON_STATE := by
    simp only [battStep, saveBattery]
    rw [if_pos hDue]
    simp [hEn, hV, relayOff]
  have hloop : loop pir raw now s = battStep raw now s := by
    simp [loop, hb.1]
  refine ⟨?_, ?_, run_halted_absorbs evs _⟩
  · rw [hloop]
    exact hb.1
  · rw [hloop]
    exact hb.2

/-- Witness for C6: cutoff enabled, a fully discharged reading, a due
sample, and two later events (a PIR tick and a mode command) that are
all absorbed by the halt. -/
theorem C6_cutoff_terminal_witness :
    (loop false 0 20000 { initSt with battCutoff := true }).2 = true ∧
    (loop false 0 20000 { initSt with battCutoff := true }).1.pinRelay = false ∧
    run [Ev.tick true 500 30000, Ev.rx [CMD_MODE, 1] 30001]
        (.halted (loop false 0 20000 { initSt with battCutoff := true }).1)
      = .halted (loop false 0 20000 { initSt with battCutoff := true }).1 := by
  have h := C6_cutoff_terminal { initSt with battCutoff := true } 0 20000 false
    [Ev.tick true 500 30000, Ev.rx [CMD_MODE, 1] 30001]
    rfl (by norm_num [vOf, VBAT_CUT, VREF, R1, R2]) (by decide)
  exact ⟨h.1, h.2.1, h.2.2⟩

/-- C9: every operation that returns control keeps `powering` consistent
with the physical relay pin (with `RELAY_ON_STATE = HIGH` the pin level
equals `powering`): `rxEvent` preserves the consistency from any
consistent state, a non-halting `loop` iteration preserves it, and
`setup` establishes it — so mode and relay state are fully determined on
every returning path. -/
theorem C9_relay_state_determined (s : St) (bytes : List Nat)
    (now n2 n0 r0 raw : Nat) (pir p0 : Bool)
    (hInv : s.pinRelay = s.powering) :
    (rxEvent bytes now s).pinRelay = (rxEvent bytes now s).powering ∧
    (∀ s2 : St, loop pir raw n2 s = (s2, false) → s2.pinRelay = s2.powering) ∧
    (∀ s2 : St, setup n0 p0 r0 = (s2, false) → s2.pinRelay = s2.powering) := by
  refine ⟨?_, ?_, ?_⟩
  · cases bytes with
    | nil => exact hInv
    | cons c rest =>
      simp only [rxEvent, applyRelay, relayOn, relayOff]
      split_ifs <;> simp_all [RELAY_ON_STATE]
  · intro s2 h
    cases hb : (battStep raw n2 s).2 with
    | true =>
      simp only [loop, hb, if_true] at h
      have h2 := congrArg Prod.snd h
      simp [hb] at h2
    | false =>
      simp only [loop, hb, Bool.false_eq_true, if_false, Prod.mk.injEq] at h
      rw [← h.1]
      apply loopCore_pin_powering
      rw [battStep_pin_of_not_halted raw n2 s hb, (battStep_fields raw n2 s).2.2.1]
      exact hInv
  · intro s2 h
    have hnb : (saveBattery r0
        { relayOn initSt with powering := true, onMs := n0, lastPir := p0 }).2
        = false := saveBattery_no_halt _ _ rfl
    simp only [setup, hnb, Bool.false_eq_true, if_false, Prod.mk.injEq] at h
    rw [← h.1]
    have hp := saveBattery_pin_of_not_halted r0
      { relayOn initSt with powering := true, onMs := n0, lastPir := p0 } hnb
    have hw := (saveBattery_fields r0
      { relayOn initSt with powering := true, onMs := n0, lastPir := p0 }).2.2.1
    simp only [relayOn, initSt, RELAY_ON_STATE] at hp hw ⊢
    rw [hp, hw]

/-- Witness for C9: a shutdown frame, a quiet tick, and `setup`, all
from the initial consistent state with the pin driven high. -/
theorem C9_relay_state_determined_witness :
    (rxEvent [CMD_SHUT] 3 { initSt with pinRelay := true }).pinRelay
      = (rxEvent [CMD_SHUT] 3 { initSt with pinRelay := true }).powering ∧
    ((setup 5 false 512).1.pinRelay = (setup 5 false 512).1.powering) := by
  have h := C9_relay_state_determined { initSt with pinRelay := true } [CMD_SHUT]
    3 4 5 512 9 false false rfl
  have hs : setup 5 false 512 = ((setup 5 false 512).1, false) := by
    have hnb : (saveBattery 512
        { relayOn initSt with powering := true, onMs := 5, lastPir := false }).2
        = false := saveBattery_no_halt _ _ rfl
    simp [setup, hnb]
  exact ⟨h.1, h.2.2 (setup 5 false 512).1 hs⟩

/-- C10: in the shipped firmware `battCutoff` is initialised `false` and
no operation ever assigns it, so every reachable configuration is still
running with `battCutoff = false`, and from any such state a battery
sample never takes the terminal low-voltage branch: `saveBattery` always
returns normally. -/
theorem C10_cutoff_flag_stays_false (n0 r0 : Nat) (p0 : Bool) (evs : List Ev) :
    ∃ s : St, run evs (boot n0 p0 r0) = .running s ∧ s.battCutoff = false ∧
      ∀ raw : Nat, (saveBattery raw s).2 = false := by
  have hnb : (saveBattery r0
      { relayOn initSt with powering := true, onMs := n0, lastPir := p0 }).2
      = false := saveBattery_no_halt _ _ rfl
  have hboot : boot n0 p0 r0 = .running
      { (saveBattery r0
          { relayOn initSt with powering := true, onMs := n0, lastPir := p0 }).1
        with battT := n0 } := by
    simp [boot, setup, hnb]
  have hc0 : St.battCutoff
      { (saveBattery r0
          { relayOn initSt with powering := true, onMs := n0, lastPir := p0 }).1
        with battT := n0 } = false := by
    have hw := (saveBattery_fields r0
      { relayOn initSt with powering := true, onMs := n0, lastPir := p0 }).2.2.2.2.2.2
    simp [relayOn, initSt] at hw
    simpa using hw
  obtain ⟨s2, h2, hc2⟩ := run_preserves_noCutoff evs _ hc0
  refine ⟨s2, ?_, hc2, fun raw => saveBattery_no_halt raw s2 hc2⟩
  rw [hboot]
  exact h2

end GardenCam
